import Mathlib

/-!
Verification of the clusrun head node (src/clusnode/headnode.go) against its
natural-language specification.  The Go functions relevant to the claims are
shallowly embedded below: strings are modelled at the character level (the
inputs of interest are ASCII, where Go's byte indexing and character indexing
coincide), Go's 64-bit machine integers are modelled as `Int` with an explicit
two's-complement wrap where overflow can occur, and fallible operations return
`Option`.  Stateful code (the validation state machine, the job dispatcher) is
modelled as pure transition functions over explicit state, with external RPC
outcomes supplied as parameters.
-/

namespace Clusrun

/-! ## Character-level models of the Go string operations used by headnode.go -/

/-- The character U+007B, written via its code point. -/
def lbrace : Char := Char.ofNat 123

/-- The character U+007D, written via its code point. -/
def rbrace : Char := Char.ofNat 125

/-- Model of Go `strings.Split(s, sep)` for a one-character separator `sep`.
Like Go, splitting the empty string yields one empty field. -/
def splitChar (sep : Char) : List Char → List (List Char)
  | [] => [[]]
  | c :: rest =>
    let r := splitChar sep rest
    if c == sep then [] :: r
    else
      match r with
      | h :: t => (c :: h) :: t
      | [] => [[c]]

/-- Model of Go `strings.LastIndex(s, sub)` for a one-character `sub`:
the index of the last occurrence, `none` when absent (Go returns `-1`). -/
def lastIdxOf (c : Char) : List Char → Option Nat
  | [] => none
  | a :: rest =>
    match lastIdxOf c rest with
    | some i => some (i + 1)
    | none => if a == c then some 0 else none

/-- Model of Go `strings.HasPrefix` on character lists (used to model
`strings.Contains` and `strings.ReplaceAll`). -/
def startsWithL : List Char → List Char → Bool
  | _, [] => true
  | [], _ :: _ => false
  | a :: s, b :: t => a == b && startsWithL s t

/-- Model of Go `strings.Contains(s, sub)`: some suffix of `s` starts with
`sub`.  In Go the empty substring is contained in every string. -/
def goContains : List Char → List Char → Bool
  | [], sub => startsWithL [] sub
  | s@(_ :: rest), sub => startsWithL s sub || goContains rest sub

/-- `strings.Contains` on `String`. -/
def goContainsStr (s sub : String) : Bool := goContains s.data sub.data

/-- Auxiliary loop of `goReplaceAll` for a non-empty pattern `o :: os`. -/
def replaceNE (o : Char) (os newl : List Char) : List Char → List Char
  | [] => []
  | c :: rest =>
    if startsWithL (c :: rest) (o :: os) then newl ++ replaceNE o os newl (rest.drop os.length)
    else c :: replaceNE o os newl rest
termination_by l => l.length
decreasing_by
  · simp only [List.length_cons]
    have := List.length_drop os.length rest
    omega
  · simp only [List.length_cons]
    omega

/-- Model of Go `strings.ReplaceAll(s, old, new)`.  When `old` is empty Go
inserts `new` before every character and at the end. -/
def goReplaceAll (s old newl : List Char) : List Char :=
  match old with
  | [] => newl ++ s.foldr (fun c acc => c :: (newl ++ acc)) []
  | o :: os => replaceNE o os newl s

/-- `strings.ReplaceAll` on `String`. -/
def goReplaceAllStr (s old newl : String) : String :=
  String.mk (goReplaceAll s.data old.data newl.data)

/-! ## Model of Go `strconv.Atoi` (i.e. `ParseInt(s, 10, 64)`) -/

/-- Value of a decimal digit character, `none` for a non-digit. -/
def digitVal (c : Char) : Option Nat :=
  if '0' ≤ c ∧ c ≤ '9' then some (c.toNat - '0'.toNat) else none

/-- Accumulating decimal evaluation; fails on the first non-digit. -/
def digitsVal : Nat → List Char → Option Nat
  | acc, [] => some acc
  | acc, c :: rest =>
    match digitVal c with
    | some d => digitsVal (acc * 10 + d) rest
    | none => none

/-- Digits (at least one) with a sign applied, checked against the `int64`
range exactly as Go's `strconv.ParseInt(s, 10, 64)` does; any failure makes
`Atoi` return a non-nil error, which the caller treats as a parse failure. -/
def goAtoiDigits (ds : List Char) (neg : Bool) : Option Int :=
  match ds with
  | [] => none
  | _ :: _ =>
    match digitsVal 0 ds with
    | none => none
    | some n =>
      if neg then (if (n : Int) > 9223372036854775808 then none else some (-(n : Int)))
      else (if (n : Int) > 9223372036854775807 then none else some ((n : Int)))

/-- Model of Go `strconv.Atoi` on a 64-bit platform: optional sign, one or
more decimal digits, value within the `int64` range. -/
def goAtoi (s : List Char) : Option Int :=
  match s with
  | [] => none
  | '+' :: rest => goAtoiDigits rest false
  | '-' :: rest => goAtoiDigits rest true
  | _ => goAtoiDigits s false

/-! ## The sweep parser (`parseSweep`, headnode.go lines 446-574) -/

/-- Largest value of the Go type `int` on a 64-bit platform.  `Max_Int` is
defined outside the files under src/; modelled from the spec (§4.A: `end`
defaults to `+∞` when ascending) as the largest machine integer. -/
def Max_Int : Int := 9223372036854775807

/-- Smallest value of the Go type `int` on a 64-bit platform.  `Min_Int` is
defined outside the files under src/; modelled from the spec (§4.A: `end`
defaults to `−∞` when descending) as the smallest machine integer. -/
def Min_Int : Int := -9223372036854775808

/-- Two's-complement wrap-around of 64-bit signed addition: Go's `int`
arithmetic (`n += step` in the sweep loop) overflows by wrapping. -/
def wrap64 (x : Int) : Int :=
  (x + 9223372036854775808) % 18446744073709551616 - 9223372036854775808

/-- One step of the sweep-sequence loop: `n += step`, and when the new value
crosses `end` (strictly above for a positive step, strictly below for a
negative step) it is reset to `begin`. -/
def sweepNext (b st e : Int) (n : Int) : Int :=
  let m := wrap64 (n + st)
  if (st > 0 ∧ m > e) ∨ (st < 0 ∧ m < e) then b else m

/-- The fill loop of `parseSweep`: emit the running value `n`, then advance it
with `sweepNext`, producing exactly `count` terms. -/
def sweepSeq (b st e : Int) : Int → Nat → List Int
  | _, 0 => []
  | n, k + 1 => n :: sweepSeq b st e (sweepNext b st e n) k

/-- Default-step resolution after a successful parse: an unspecified step
(`0`) becomes `1` when `begin < end` and `-1` when `begin > end`. -/
def resolveStep (b e st : Int) : Int :=
  if st = 0 then (if b < e then 1 else if b > e then -1 else st) else st

/-- The range portion of the sweep grammar
(`B`, `B-E`, `-B`, `-B-E`, `B--E`, `-B--E`), split on `-` exactly as the Go
code splits `parts[0]`; `endVal` is the default already selected from the
step's sign, `st` the explicitly given step (or `0`). -/
def parseSweepRange (cs : List Char) (idx : Nat) (p0 : List Char) (endVal st : Int) :
    Option (List Char × Int × Int × Int) :=
  let ph := cs.take idx
  match splitChar '-' p0 with
  | [a] =>
    match goAtoi a with
    | none => none
    | some b => some (ph, b, endVal, st)
  | [a, b1] =>
    if a = [] then
      match goAtoi ('-' :: b1) with
      | none => none
      | some b => some (ph, b, endVal, st)
    else
      match goAtoi a, goAtoi b1 with
      | some b, some e => some (ph, b, e, st)
      | _, _ => none
  | [a, b1, c] =>
    if a = [] then
      match goAtoi ('-' :: b1), goAtoi c with
      | some b, some e => some (ph, b, e, st)
      | _, _ => none
    else if b1 = [] then
      match goAtoi a, goAtoi ('-' :: c) with
      | some b, some e => some (ph, b, e, st)
      | _, _ => none
    else none
  | [a, b1, c, d] =>
    if a = [] ∨ c = [] then
      match goAtoi ('-' :: b1), goAtoi ('-' :: d) with
      | some b, some e => some (ph, b, e, st)
      | _, _ => none
    else none
  | _ => none

/-- The parsing phase of `parseSweep`: `none` on every failure path (the Go
code then returns the fallback placeholder and index sequence), otherwise
`(placeholder, begin, end, step)` with `step = 0` when it was not given. -/
def parseSweepCore (cs : List Char) : Option (List Char × Int × Int × Int) :=
  if cs = [] then none
  else if cs.getLast? = some rbrace then
    match lastIdxOf lbrace cs with
    | none => none
    | some idx =>
      if idx = 0 then none
      else
        let content := (cs.dropLast).drop (idx + 1)
        match splitChar ',' content with
        | [p0] => parseSweepRange cs idx p0 Max_Int 0
        | [p0, p1] =>
          match goAtoi p1 with
          | none => none
          | some s =>
            if s = 0 then none
            else parseSweepRange cs idx p0 (if s < 0 then Min_Int else Max_Int) s
        | _ => none
  else none

/-- Model of `parseSweep` (headnode.go line 447): on any parse failure the
placeholder is the whole sweep string and the sequence is `0,1,…,count−1`;
on success the placeholder is the part before the last opening brace and the
sequence is produced by the fill loop from the resolved begin/end/step. -/
def parseSweep (sweep : String) (count : Nat) : String × List Int :=
  match parseSweepCore sweep.data with
  | none => (sweep, (List.range count).map (fun i => Int.ofNat i))
  | some r =>
    (String.mk r.1, sweepSeq r.2.1 (resolveStep r.2.1 r.2.2.1 r.2.2.2) r.2.2.1 r.2.1 count)

/-! ## The validator state machine (`Validate`, headnode.go lines 216-254) -/

/-- Outcome of one validation attempt against the worker: the dial fails, the
`Validate` RPC fails, the RPC succeeds but the replied nodename differs from
the expected one, or the RPC succeeds with a matching nodename. -/
inductive ValidateOutcome
  | dialErr
  | rpcErr
  | mismatch
  | ok
deriving DecidableEq

/-- Observable effects of one `Validate` run on a node's `validateNumber`
entry: whether the run proceeded past the initial guard, how long it slept
(seconds), and the value the entry holds when the run is over. -/
structure ValidateRunResult where
  performed : Bool
  delay : Option Int
  final : Int
deriving DecidableEq

/-- Backoff delay in seconds: `math.Pow(2, number)` capped at 60. -/
def backoffDelay (number : Int) : Int :=
  if (2 : Int) ^ number.toNat > 60 then 60 else (2 : Int) ^ number.toNat

/-- One `Validate` run as a transition on the node's stored `validateNumber`
value `v` (`none` when the map has no entry), with the attempt's outcome
supplied as a parameter.  `LoadOrStore(display_name, 0)` yields
`(0, false)` when the entry is absent and `(v, true)` otherwise; the run
proceeds iff `!ok || number > 0`, sleeping the backoff delay only when the
entry existed; the final store is `number+1` on a transport or RPC error,
`10` on an identity mismatch and `-1` on success. -/
def validateRun (v : Option Int) (outcome : ValidateOutcome) : ValidateRunResult :=
  let number := v.getD 0
  if v.isSome = false ∨ number > 0 then
    let d := if v.isSome then some (backoffDelay number) else none
    let final : Int :=
      match outcome with
      | ValidateOutcome.dialErr => number + 1
      | ValidateOutcome.rpcErr => number + 1
      | ValidateOutcome.mismatch => 10
      | ValidateOutcome.ok => -1
    ⟨true, d, final⟩
  else
    ⟨false, none, number⟩

/-! ## Node state as reported by `GetNodes` (headnode.go lines 66-93, 442-444) -/

/-- The protobuf `NodeState` enum. -/
inductive NodeState
  | Unknown
  | Ready
  | Error
  | Lost
deriving DecidableEq

/-- Model of `HeartbeatTimeout` (headnode.go line 442): `time.Since` is in
nanoseconds, the configured timeout in seconds. -/
def heartbeatTimeout (now last_report timeoutSec : Int) : Bool :=
  decide (now - last_report > timeoutSec * 1000000000)

/-- Per-node state computation inside `GetNodes`: `Lost` when the heartbeat
timed out, otherwise `Ready` iff a `validateNumber` entry exists and is
negative, else `Error`. -/
def computeNodeState (timedOut : Bool) (vn : Option Int) : NodeState :=
  if timedOut then NodeState.Lost
  else
    match vn with
    | some k => if k < 0 then NodeState.Ready else NodeState.Error
    | none => NodeState.Error

/-- Model of `GetNodes`: the registry's `reportedTime` map is a list of
`(display name, last report time)` pairs, `validateNumber` a partial map, and
`regexp.MatchString`'s boolean result (its error is discarded by the code) is
the parameter `matched`.  Nodes failing the pattern are skipped; the rest are
filtered by the requested state unless that is the `Unknown` wildcard. -/
def getNodes (entries : List (String × Int)) (vn : String → Option Int)
    (now timeoutSec : Int) (matched : String → Bool) (stateFilter : NodeState) :
    List (String × NodeState) :=
  entries.filterMap (fun e =>
    if matched e.1 = false then none
    else
      let st := computeNodeState (heartbeatTimeout now e.2 timeoutSec) (vn e.1)
      if stateFilter = NodeState.Unknown ∨ stateFilter = st then some (e.1, st) else none)

/-! ## Node resolution (`GetValidNodes` and `ParseHost`, headnode.go 256-297) -/

/-- Default clusnode port.  `DefaultPort` is defined outside the files under
src/; modelled from the spec (§6: a default port is assumed when an address
omits one).  Its concrete value does not affect any claim. -/
def DefaultPort : String := "50505"

/-- Model of `ParseHost`: a display name without a parenthesis maps to
`name:DefaultPort`, otherwise to the parenthesised host with the closing
parenthesis removed. -/
def ParseHost (display_name : String) : String :=
  match splitChar '(' display_name.data with
  | _ :: s1 :: _ => String.mk s1.dropLast
  | _ => display_name ++ ":" ++ DefaultPort

/-- One step of the first loop of `GetValidNodes`, building the pool of
ready nodes: a node enters the pool iff its `validateNumber` entry exists and
is negative, its heartbeat has not timed out, and it matches the pattern; it
is then indexed both under its display name and under its parsed host (a
later map write shadowing an earlier one, hence the prepending). -/
def readyPoolStep (vn : String → Option Int) (now timeoutSec : Int) (matched : String → Bool)
    (acc : List (String × String) × List String) (e : String × Int) :
    List (String × String) × List String :=
  match vn e.1 with
  | some k =>
    if k < 0 ∧ heartbeatTimeout now e.2 timeoutSec = false then
      if matched e.1 = false then acc
      else ((ParseHost e.1, e.1) :: (e.1, e.1) :: acc.1, acc.2 ++ [e.1])
    else acc
  | none => acc

/-- One step of the second loop of `GetValidNodes`, resolving one explicitly
requested node: the accumulator is `(valid, invalid, added)`; an upper-cased
hit in the ready pool is appended to `valid` unless already added, a miss is
appended to `invalid` verbatim. -/
def resolveExplicitStep (ready : List (String × String))
    (acc : List String × List String × List String) (node : String) :
    List String × List String × List String :=
  match ready.lookup node.toUpper with
  | some vnode => if vnode ∈ acc.2.2 then acc else (acc.1 ++ [vnode], acc.2.1, vnode :: acc.2.2)
  | none => (acc.1, acc.2.1 ++ [node], acc.2.2)

/-- Model of `GetValidNodes`: build the ready pool from the registry; with no
explicitly requested nodes return the whole pool and no invalid nodes,
otherwise resolve each requested node through the pool's dual index. -/
def getValidNodes (entries : List (String × Int)) (vn : String → Option Int)
    (now timeoutSec : Int) (matched : String → Bool) (nodes : List String) :
    List String × List String :=
  let pool := entries.foldl (readyPoolStep vn now timeoutSec matched) ([], [])
  if nodes = [] then (pool.2, [])
  else
    let r := nodes.foldl (resolveExplicitStep pool.1) ([], [], [])
    (r.1, r.2.1)

/-! ## The job dispatcher (`StartClusJob` / `StartJobOnNode`, headnode.go 117-186, 299-397) -/

/-- The protobuf `JobState` enum. -/
inductive JobState
  | Created
  | Dispatching
  | Running
  | Finished
  | Failed
  | Canceled
deriving DecidableEq

/-- The transient per-node record kept in the `job_on_nodes` map during one
dispatch (headnode.go line 27); a Go struct literal zeroes omitted fields,
so records stored without an exit code carry `0`. -/
structure jobOnNode where
  state : JobState
  exitCode : Int
deriving DecidableEq

/-- One message received from the worker's `StartJob` stream: optional
stdout, optional stderr, and an exit code. -/
structure Output where
  stdout : String
  stderr : String
  exitCode : Int
deriving DecidableEq

/-- How the worker stream ends after its messages: a clean EOF or a non-EOF
receive error. -/
inductive StreamEnd
  | eof
  | recvErr
deriving DecidableEq

/-- Scenario of one per-node handler (`StartJobOnNode`): output-file creation
fails (only possible when output saving is on), the dial fails, the
`StartJob` RPC itself fails, or a stream is obtained and consumed to its
end. -/
inductive NodeRun
  | fileCreateFail
  | dialFail
  | startJobFail
  | stream (msgs : List Output) (ending : StreamEnd)
deriving DecidableEq

/-- Result of the receive loop: a terminal EOF carrying the last exit code
seen (initially `-1`), or an abort on a non-EOF receive error. -/
inductive LoopEnd
  | terminal (exitCode : Int)
  | aborted
deriving DecidableEq

/-- The receive loop of `StartJobOnNode` (headnode.go lines 343-391) with the
file writes and client forwarding elided (they do not touch the stored
state): every received message overwrites the remembered exit code; EOF
breaks out with it; a non-EOF receive error returns from the handler. -/
def recvLoop : Int → List Output → StreamEnd → LoopEnd
  | ec, [], StreamEnd.eof => LoopEnd.terminal ec
  | _, [], StreamEnd.recvErr => LoopEnd.aborted
  | _, m :: rest, ending => recvLoop m.exitCode rest ending

/-- Final `job_on_nodes` entry written by one handler: `none` when the
handler returned before its first store (file-creation failure), the
`Dispatching` record when the dial failed, a `Failed` record when `StartJob`
itself failed, and otherwise the result of the receive loop — on EOF
`Finished` iff the last exit code is `0` else `Failed` with that code, and on
a receive error the `Running` record stored when the stream opened. -/
def StartJobOnNodeFinal (run : NodeRun) : Option jobOnNode :=
  match run with
  | NodeRun.fileCreateFail => none
  | NodeRun.dialFail => some ⟨JobState.Dispatching, 0⟩
  | NodeRun.startJobFail => some ⟨JobState.Failed, 0⟩
  | NodeRun.stream msgs ending =>
    match recvLoop (-1) msgs ending with
    | LoopEnd.terminal ec =>
      some (if ec = 0 then ⟨JobState.Finished, 0⟩ else ⟨JobState.Failed, ec⟩)
    | LoopEnd.aborted => some ⟨JobState.Running, 0⟩

/-- The last exit code carried by a list of stream messages, `-1` when there
are none (the loop's initial value). -/
def lastExitCode (msgs : List Output) : Int := (msgs.map Output.exitCode).getLastD (-1)

/-- The aggregation of `StartClusJob` (headnode.go lines 171-179): the nodes
whose recorded state is `Failed`, with their exit codes. -/
def failedNodesOf (stored : List (String × jobOnNode)) : List (String × Int) :=
  (stored.filter (fun p => decide (p.2.state = JobState.Failed))).map
    (fun p => (p.1, p.2.exitCode))

/-- Externally visible actions of one `StartClusJob` run, in order. -/
inductive Event
  | createJob (command sweep : String) (nodes : List String)
  | header (jobId : Int) (nodes : List String)
  | stateChange (src dst : JobState)
  | dispatch (node command : String)
  | updateFailed (jobId : Int) (failed : List (String × Int))
  | updateFinished (jobId : Int)
deriving DecidableEq

/-- The final `JobStore` notification (headnode.go lines 180-184):
`UpdateFailedJob` with the failed nodes when there are any, else
`UpdateFinishedJob`. -/
def dbUpdate (id : Int) (stored : List (String × jobOnNode)) : Event :=
  if failedNodesOf stored = [] then Event.updateFinished id
  else Event.updateFailed id (failedNodesOf stored)

/-- Reasons a `StartClusJob` request can end in an RPC error. -/
inductive Reject
  | invalidNodes (nodes : List String)
  | noValidNodes
  | placeholderNotInCommand (placeholder command : String)
  | createJobFailed (msg : String)
  | headerSendFailed
deriving DecidableEq

/-- External collaborators of one dispatch: the `JobStore.CreateNewJob`
result, whether the header send on the client stream succeeds, and the
scenario each per-node handler runs through. -/
structure DispatchEnv where
  createResult : Except String Int
  headerSendOk : Bool
  runs : String → NodeRun

/-- Lexicographic comparison of character lists by code point (Go compares
strings byte-wise; on ASCII the two agree). -/
def charListLe : List Char → List Char → Bool
  | [], _ => true
  | _ :: _, [] => false
  | a :: as, b :: bs => if a.toNat < b.toNat then true else if b.toNat < a.toNat then false else charListLe as bs

/-- Insertion of one string into a sorted list, for `sort.Strings`. -/
def insertSorted (x : String) : List String → List String
  | [] => [x]
  | y :: ys => if charListLe x.data y.data then x :: y :: ys else y :: insertSorted x ys

/-- Model of `sort.Strings`. -/
def sortStrings (l : List String) : List String := l.foldr insertSorted []

/-- The per-node command (headnode.go lines 161-164): the placeholder is
substituted only when the sweep string is non-empty. -/
def nodeCommand (command sweep placeholder : String) (v : Int) : String :=
  if sweep.length > 0 then goReplaceAllStr command placeholder (toString v) else command

/-- Model of `StartClusJob` given the already-resolved node lists (`valid`,
`invalid` from `GetValidNodes`): returns the ordered trace of externally
visible actions together with the rejection, if any.  An empty trace means no
reply was sent on the stream and `CreateNewJob` was never called. -/
def startClusJob (command sweep : String) (valid invalid : List String)
    (env : DispatchEnv) : List Event × Option Reject :=
  let nodes := sortStrings valid
  let invalidS := sortStrings invalid
  if invalidS ≠ [] then ([], some (Reject.invalidNodes invalidS))
  else if nodes = [] then ([], some Reject.noValidNodes)
  else
    let ps := parseSweep sweep nodes.length
    if goContainsStr command ps.1 = false then
      ([], some (Reject.placeholderNotInCommand ps.1 command))
    else
      match env.createResult with
      | Except.error e => ([Event.createJob command sweep nodes], some (Reject.createJobFailed e))
      | Except.ok id =>
        if env.headerSendOk = false then
          ([Event.createJob command sweep nodes], some Reject.headerSendFailed)
        else
          let stored := nodes.filterMap
            (fun n => (StartJobOnNodeFinal (env.runs n)).map (fun j => (n, j)))
          ([Event.createJob command sweep nodes, Event.header id nodes,
              Event.stateChange JobState.Created JobState.Dispatching]
            ++ (nodes.zip ps.2).map (fun p => Event.dispatch p.1 (nodeCommand command sweep ps.1 p.2))
            ++ [Event.stateChange JobState.Dispatching JobState.Running]
            ++ [dbUpdate id stored], none)

/-- A concrete dispatch environment for closed instances: job id 1, header
send succeeds, every node's stream ends immediately with EOF. -/
def envDefault : DispatchEnv :=
  ⟨Except.ok 1, true, fun _ => NodeRun.stream [] StreamEnd.eof⟩

/-- Values the head node ever stores in `validateNumber`: `-1` (ready) or a
non-negative counter (`0` in progress, `n ≥ 1` failures, `10` mismatch). -/
def storableVal (v : Option Int) : Prop := ∀ n, v = some n → n = -1 ∨ 0 ≤ n

/-! ## Helper lemmas -/

theorem sweepSeq_length (b st e : Int) : ∀ (k : Nat) (n : Int), (sweepSeq b st e n k).length = k := by
  intro k
  induction k with
  | zero => intro n; rfl
  | succ k ih => intro n; simp [sweepSeq, ih]

theorem sweepSeq_eq_iterate (b st e : Int) :
    ∀ (k : Nat) (n : Int),
      sweepSeq b st e n k = (List.range k).map (fun i => (sweepNext b st e)^[i] n) := by
  intro k
  induction k with
  | zero => intro n; simp [sweepSeq]
  | succ k ih =>
    intro n
    rw [List.range_succ_eq_map, sweepSeq, ih (sweepNext b st e n)]
    simp [Function.comp_def, Function.iterate_succ_apply]

theorem iterate_sweepNext_one_three (i : Nat) :
    (sweepNext 1 1 3)^[i] 1 = 1 + ((i % 3 : Nat) : Int) := by
  induction i with
  | zero => simp
  | succ k ih =>
    rw [Function.iterate_succ_apply', ih]
    have h3 : k % 3 = 0 ∨ k % 3 = 1 ∨ k % 3 = 2 := by omega
    have hs : (k + 1) % 3 = (k % 3 + 1) % 3 := by omega
    rcases h3 with h | h | h <;> rw [hs, h] <;> norm_num <;> decide

theorem iterate_sweepNext_five_desc (i : Nat) :
    (sweepNext 5 (-1) (-1))^[i] 5 = 5 - ((i % 7 : Nat) : Int) := by
  induction i with
  | zero => simp
  | succ k ih =>
    rw [Function.iterate_succ_apply', ih]
    have h7 : k % 7 = 0 ∨ k % 7 = 1 ∨ k % 7 = 2 ∨ k % 7 = 3 ∨ k % 7 = 4 ∨ k % 7 = 5
        ∨ k % 7 = 6 := by omega
    have hs : (k + 1) % 7 = (k % 7 + 1) % 7 := by omega
    rcases h7 with h | h | h | h | h | h | h <;> rw [hs, h] <;> norm_num <;> decide

theorem sweepSeq_one_three (count : Nat) :
    sweepSeq 1 1 3 1 count = (List.range count).map (fun i => 1 + ((i % 3 : Nat) : Int)) := by
  rw [sweepSeq_eq_iterate]
  exact List.map_congr_left (fun i _ => iterate_sweepNext_one_three i)

theorem sweepSeq_five_desc (count : Nat) :
    sweepSeq 5 (-1) (-1) 5 count = (List.range count).map (fun i => 5 - ((i % 7 : Nat) : Int)) := by
  rw [sweepSeq_eq_iterate]
  exact List.map_congr_left (fun i _ => iterate_sweepNext_five_desc i)

theorem recvLoop_eof (msgs : List Output) :
    ∀ ec, recvLoop ec msgs StreamEnd.eof =
      LoopEnd.terminal ((msgs.map Output.exitCode).getLastD ec) := by
  induction msgs with
  | nil => intro ec; rfl
  | cons m rest ih =>
    intro ec
    show recvLoop m.exitCode rest StreamEnd.eof = _
    rw [ih m.exitCode, List.map_cons, List.getLastD_cons]

theorem recvLoop_recvErr (msgs : List Output) :
    ∀ ec, recvLoop ec msgs StreamEnd.recvErr = LoopEnd.aborted := by
  induction msgs with
  | nil => intro ec; rfl
  | cons m rest ih => intro ec; exact ih m.exitCode

theorem mem_failedNodesOf (stored : List (String × jobOnNode)) (q : String × Int) :
    q ∈ failedNodesOf stored ↔
      ∃ j, (q.1, j) ∈ stored ∧ j.state = JobState.Failed ∧ q.2 = j.exitCode := by
  obtain ⟨a, x⟩ := q
  simp only [failedNodesOf, List.mem_map, List.mem_filter, decide_eq_true_eq]
  constructor
  · rintro ⟨p, ⟨hp, hf⟩, hq⟩
    obtain ⟨h1, h2⟩ := Prod.mk.injEq _ _ _ _ ▸ hq
    exact ⟨p.2, by rw [← h1]; simpa using hp, hf, h2.symm⟩
  · rintro ⟨j, hj, hf, hx⟩
    exact ⟨(a, j), ⟨hj, hf⟩, by simp [hx]⟩

theorem parseSweep_fst (sweep : String) (n m : Nat) :
    (parseSweep sweep n).1 = (parseSweep sweep m).1 := by
  cases h : parseSweepCore sweep.data <;> simp [parseSweep, h]

theorem goContains_nil (cs : List Char) : goContains cs [] = true := by
  cases cs <;> simp [goContains, startsWithL]

theorem insertSorted_length (x : String) : ∀ l, (insertSorted x l).length = l.length + 1 := by
  intro l
  induction l with
  | nil => rfl
  | cons y ys ih =>
    simp only [insertSorted]
    split <;> simp [ih]

theorem sortStrings_length (l : List String) : (sortStrings l).length = l.length := by
  induction l with
  | nil => rfl
  | cons x xs ih =>
    rw [show sortStrings (x :: xs) = insertSorted x (sortStrings xs) from rfl,
      insertSorted_length, ih]
    simp

theorem sortStrings_eq_nil_iff (l : List String) : sortStrings l = [] ↔ l = [] := by
  constructor
  · intro h
    have hl := sortStrings_length l
    rw [h] at hl
    exact List.length_eq_zero.mp hl.symm
  · rintro rfl
    rfl

theorem foldl_id_of_step {α β : Type} (f : α → β → α) (h : ∀ acc e, f acc e = acc) :
    ∀ (l : List β) (acc : α), l.foldl f acc = acc := by
  intro l
  induction l with
  | nil => intro acc; rfl
  | cons e rest ih =>
    intro acc
    rw [List.foldl_cons, h]
    exact ih acc

theorem readyPoolStep_id (vn : String → Option Int) (now t : Int) (matched : String → Bool)
    (hm : ∀ s, matched s = false) (acc : List (String × String) × List String)
    (e : String × Int) : readyPoolStep vn now t matched acc e = acc := by
  cases h : vn e.1 <;> simp [readyPoolStep, h, hm]

theorem resolveExplicit_empty_pool :
    ∀ (nodes v inv added : List String),
      nodes.foldl (resolveExplicitStep []) (v, inv, added) = (v, inv ++ nodes, added) := by
  intro nodes
  induction nodes with
  | nil => intro v inv added; simp
  | cons n rest ih =>
    intro v inv added
    rw [List.foldl_cons]
    have hstep : resolveExplicitStep [] (v, inv, added) n = (v, inv ++ [n], added) := by
      simp [resolveExplicitStep]
    rw [hstep, ih]
    simp

theorem getNodes_matched_false (entries : List (String × Int)) (vn : String → Option Int)
    (now t : Int) (filt : NodeState) (matched : String → Bool)
    (hm : ∀ s, matched s = false) : getNodes entries vn now t matched filt = [] := by
  rw [getNodes, List.filterMap_eq_nil_iff]
  intro e he
  simp [hm]

/-! ## Claims -/

/-- Claim C1 (counterexample): with stored validation state `10`, a
heartbeat-triggered `Validate` run does not exit without doing anything — the
guard `!ok || number > 0` is satisfied, so it proceeds, and on a successful
identity check it stores `-1`, after which the (alive) node is reported
`Ready`.  This refutes stickiness of state `10` until timeout plus a fresh
first heartbeat. -/
theorem C1_sticky_mismatch_counterexample :
    (validateRun (some 10) ValidateOutcome.ok).performed = true
    ∧ (validateRun (some 10) ValidateOutcome.ok).final = -1
    ∧ computeNodeState false (some (validateRun (some 10) ValidateOutcome.ok).final)
        = NodeState.Ready := by
  decide

/-- Claim C1 (amended): a stored validation state of `10` does not make a
subsequent `Validate` run exit: the run proceeds after the capped maximum
backoff of 60 seconds (`min(2^10, 60)`); a matching reply then stores `-1`,
so the node can become `Ready` again without timing out, a repeated mismatch
stores `10` and a transport or RPC error stores `11`.  Only the stored
values `-1` and `0` make `Validate` exit without doing anything. -/
theorem C1_validate_state_machine (o : ValidateOutcome) :
    (validateRun (some 10) o).performed = true
    ∧ (validateRun (some 10) o).delay = some 60
    ∧ (validateRun (some 10) o).final =
        (match o with
         | ValidateOutcome.dialErr => 11
         | ValidateOutcome.rpcErr => 11
         | ValidateOutcome.mismatch => 10
         | ValidateOutcome.ok => -1)
    ∧ (validateRun (some (-1)) o).performed = false
    ∧ (validateRun (some (-1)) o).final = -1
    ∧ (validateRun (some 0) o).performed = false
    ∧ (validateRun (some 0) o).final = 0 := by
  cases o <;> decide

/-- Claim C2: for every sweep string and every node count, `parseSweep`
returns a sequence of exactly `count` integers, on the successful-parse path
and on every parse-failure path. -/
theorem C2_parseSweep_length (sweep : String) (count : Nat) :
    ((parseSweep sweep count).2).length = count := by
  cases h : parseSweepCore sweep.data
  · simp only [parseSweep, h, List.length_map, List.length_range]
  · simp only [parseSweep, h, sweepSeq_length]

/-- Claim C3 (counterexample): near the top of the 64-bit range the claimed
"wrap back to begin" semantics fails: for sweep
`x{9223372036854775806-9223372036854775807}` the third term arises from
two's-complement overflow of `n += step` and is `-9223372036854775808`, not
`begin = 9223372036854775806` as the claim's unbounded-integer reading
predicts. -/
theorem C3_overflow_counterexample :
    (parseSweep "x\x7b9223372036854775806-9223372036854775807\x7d" 3).2 =
      [9223372036854775806, 9223372036854775807, -9223372036854775808]
    ∧ (parseSweep "x\x7b9223372036854775806-9223372036854775807\x7d" 3).2 ≠
      [9223372036854775806, 9223372036854775807, 9223372036854775806] := by
  decide

/-- Claim C3 (amended): for every successfully parsed sweep with resolved
begin, end and nonzero step, the returned sequence is the orbit of `begin`
under the loop's step function — add `step` with 64-bit two's-complement
wrap-around, and whenever that next value crosses `end` (strictly greater
for a positive step, strictly less for a negative one) reset to `begin`.
In particular sweep `x{1-3}` yields `1,2,3,1,2,3,…` and sweep `x{5--1}`
yields `5,4,3,2,1,0,-1,5,…`, truncated to the node count. -/
theorem C3_sweep_sequence (sweep : String) (count : Nat) (ph : List Char) (b e st : Int)
    (hcore : parseSweepCore sweep.data = some (ph, b, e, st))
    (_hst : resolveStep b e st ≠ 0) :
    (parseSweep sweep count).2 =
      (List.range count).map (fun i => (sweepNext b (resolveStep b e st) e)^[i] b)
    ∧ (∀ k, (parseSweep "x\x7b1-3\x7d" k).2 =
        (List.range k).map (fun i => 1 + ((i % 3 : Nat) : Int)))
    ∧ (∀ k, (parseSweep "x\x7b5--1\x7d" k).2 =
        (List.range k).map (fun i => 5 - ((i % 7 : Nat) : Int))) := by
  refine ⟨?_, ?_, ?_⟩
  · simp only [parseSweep, hcore]
    exact sweepSeq_eq_iterate b (resolveStep b e st) e count b
  · intro k
    have hc : parseSweepCore (String.data "x\x7b1-3\x7d") = some (['x'], 1, 3, 0) := by decide
    simp only [parseSweep, hc]
    rw [show resolveStep 1 3 0 = 1 from by decide]
    exact sweepSeq_one_three k
  · intro k
    have hc : parseSweepCore (String.data "x\x7b5--1\x7d") = some (['x'], 5, -1, 0) := by decide
    simp only [parseSweep, hc]
    rw [show resolveStep 5 (-1) 0 = -1 from by decide]
    exact sweepSeq_five_desc k

/-- Claim C3 (witness): the amended semantics applied to the concrete sweep
`x{1-3}` with two nodes. -/
theorem C3_sweep_sequence_witness :
    (parseSweep "x\x7b1-3\x7d" 2).2 =
      (List.range 2).map (fun i => (sweepNext 1 (resolveStep 1 3 0) 3)^[i] 1) :=
  (C3_sweep_sequence "x\x7b1-3\x7d" 2 ['x'] 1 3 0 (by decide) (by decide)).1

/-- Claim C4: every failing parse — no closing brace, empty portion before
the last opening brace, a non-integer field, an explicitly given step of
`0`, more than two comma-separated fields, or an unsupported dash-split
shape — makes `parseSweep` return the whole sweep string as the placeholder
together with the index sequence `0,1,…,count−1`. -/
theorem C4_parse_failure_fallback :
    (∀ sweep count, parseSweepCore sweep.data = none →
        parseSweep sweep count = (sweep, (List.range count).map (fun i => Int.ofNat i)))
    ∧ (∀ cs : List Char, cs.getLast? ≠ some rbrace → parseSweepCore cs = none)
    ∧ parseSweepCore (String.data "x\x7b1-3") = none
    ∧ parseSweepCore (String.data "\x7b1-3\x7d") = none
    ∧ parseSweepCore (String.data "x\x7ba\x7d") = none
    ∧ parseSweepCore (String.data "x\x7b1-3,0\x7d") = none
    ∧ parseSweepCore (String.data "x\x7b1,2,3\x7d") = none
    ∧ parseSweepCore (String.data "x\x7b1-2-3\x7d") = none := by
  refine ⟨?_, ?_, by decide, by decide, by decide, by decide, by decide, by decide⟩
  · intro sweep count h
    simp [parseSweep, h]
  · intro cs h
    by_cases hc : cs = []
    · simp [parseSweepCore, hc]
    · simp [parseSweepCore, hc, h]

/-- Claim C4 (witness): the concrete non-integer field `x{a}`. -/
theorem C4_parse_failure_fallback_witness :
    parseSweep "x\x7ba\x7d" 3 = ("x\x7ba\x7d", (List.range 3).map (fun i => Int.ofNat i)) :=
  C4_parse_failure_fallback.1 "x\x7ba\x7d" 3 (by decide)

/-- Claim C5 (counterexample): with an empty sweep the placeholder is `""`,
and the substring check of `StartClusJob` succeeds on it rather than
failing — Go's `strings.Contains` holds for the empty substring — so on a
concrete request with one valid node the dispatch runs to completion with no
rejection. -/
theorem C5_empty_sweep_counterexample :
    goContainsStr "echo hi" (parseSweep "" 1).1 = true
    ∧ (startClusJob "echo hi" "" ["A"] [] envDefault).2 = none := by
  decide

/-- Claim C5 (amended): an empty sweep yields placeholder `""` and the index
sequence `0..count−1`; the placeholder-in-command check then trivially
succeeds (every string contains the empty substring), so the job is not
rejected on that ground; and the dispatcher sends the command unmodified,
performing no placeholder substitution, when the sweep is empty. -/
theorem C5_empty_sweep (command ph : String) (count : Nat) (v : Int) :
    parseSweep "" count = ("", (List.range count).map (fun i => Int.ofNat i))
    ∧ goContainsStr command "" = true
    ∧ nodeCommand command "" ph v = command := by
  refine ⟨?_, ?_, rfl⟩
  · have h : parseSweepCore (String.data "") = none := by decide
    simp [parseSweep, h]
  · exact goContains_nil command.data

/-- Claim C6: whenever node resolution produced a non-empty invalid list, or
an empty valid list, or a placeholder that does not occur in the command,
`startClusJob` ends in an error with an empty action trace: nothing is sent
on the reply stream and `CreateNewJob` is never called. -/
theorem C6_reject_before_create (command sweep : String) (valid invalid : List String)
    (env : DispatchEnv)
    (h : invalid ≠ [] ∨ valid = []
        ∨ goContainsStr command (parseSweep sweep (sortStrings valid).length).1 = false) :
    (startClusJob command sweep valid invalid env).1 = []
    ∧ (startClusJob command sweep valid invalid env).2.isSome = true := by
  by_cases hi : sortStrings invalid = []
  · by_cases hv : sortStrings valid = []
    · simp [startClusJob, hi, hv]
    · rcases h with h | h | h
      · exact absurd ((sortStrings_eq_nil_iff invalid).mp hi) h
      · exact absurd ((sortStrings_eq_nil_iff valid).mpr h) hv
      · simp [startClusJob, hi, hv, h]
  · simp [startClusJob, hi]

/-- Claim C6 (witness): a concrete request with one unresolvable node. -/
theorem C6_reject_before_create_witness :
    (startClusJob "c" "" [] ["X"] envDefault).1 = []
    ∧ (startClusJob "c" "" [] ["X"] envDefault).2.isSome = true :=
  C6_reject_before_create "c" "" [] ["X"] envDefault (Or.inl (by decide))

/-- Claim C7: a node whose worker stream reached EOF is recorded `Finished`
iff the last received exit code equals `0`, and `Failed` with that exit code
otherwise; the aggregation collects exactly the nodes whose recorded state
is `Failed`, with their exit codes; and the final store notification is
`UpdateFinishedJob` iff that collection is empty, else `UpdateFailedJob`
carrying it. -/
theorem C7_aggregation :
    (∀ msgs, StartJobOnNodeFinal (NodeRun.stream msgs StreamEnd.eof) =
        some (if lastExitCode msgs = 0 then ⟨JobState.Finished, 0⟩
              else ⟨JobState.Failed, lastExitCode msgs⟩))
    ∧ (∀ stored (q : String × Int), q ∈ failedNodesOf stored ↔
        ∃ j, (q.1, j) ∈ stored ∧ j.state = JobState.Failed ∧ q.2 = j.exitCode)
    ∧ (∀ (id : Int) stored,
        dbUpdate id stored = Event.updateFinished id ↔ failedNodesOf stored = [])
    ∧ (∀ (id : Int) stored, failedNodesOf stored ≠ [] →
        dbUpdate id stored = Event.updateFailed id (failedNodesOf stored)) := by
  refine ⟨?_, ?_, ?_, ?_⟩
  · intro msgs
    simp [StartJobOnNodeFinal, recvLoop_eof, lastExitCode]
  · exact fun stored q => mem_failedNodesOf stored q
  · intro id stored
    by_cases hf : failedNodesOf stored = [] <;> simp [dbUpdate, hf]
  · intro id stored hf
    simp [dbUpdate, hf]

/-- Claim C7 (witness): the aggregation at a concrete store with one failed
node. -/
theorem C7_aggregation_witness :
    dbUpdate 2 [("B", jobOnNode.mk JobState.Failed 7)] = Event.updateFailed 2 [("B", 7)] := by
  have h := C7_aggregation.2.2.2 2 [("B", jobOnNode.mk JobState.Failed 7)] (by decide)
  rw [show failedNodesOf [("B", jobOnNode.mk JobState.Failed 7)] = [("B", 7)] from by decide] at h
  exact h

/-- Claim C8: a registered node is reported `Lost` iff `now − last_report`
exceeds the heartbeat timeout; an alive node is reported `Ready` iff its
stored validation state is `-1`, and `Error` otherwise — including when no
validation-state entry exists — given that the head node only ever stores
`-1` or non-negative values (which the `validateRun` conjunct shows is
preserved); and every entry returned by `getNodes` carries exactly this
computed state for its recorded last-report time. -/
theorem C8_node_state (now last t : Int) (vn : Option Int) :
    (computeNodeState (heartbeatTimeout now last t) vn = NodeState.Lost ↔
        now - last > t * 1000000000)
    ∧ (storableVal vn → heartbeatTimeout now last t = false →
        (computeNodeState (heartbeatTimeout now last t) vn = NodeState.Ready ↔
          vn = some (-1)))
    ∧ (heartbeatTimeout now last t = false →
        computeNodeState (heartbeatTimeout now last t) none = NodeState.Error)
    ∧ (∀ v o, storableVal v → (validateRun v o).final = -1 ∨ 0 ≤ (validateRun v o).final)
    ∧ (∀ entries vnm mtch filt name st,
        (name, st) ∈ getNodes entries vnm now t mtch filt →
        ∃ lastr, (name, lastr) ∈ entries ∧
          st = computeNodeState (heartbeatTimeout now lastr t) (vnm name)) := by
  refine ⟨?_, ?_, ?_, ?_, ?_⟩
  · constructor
    · intro hL
      by_contra hgt
      have hb : heartbeatTimeout now last t = false := by simp [heartbeatTimeout, hgt]
      rw [hb] at hL
      unfold computeNodeState at hL
      cases vn with
      | none => simp at hL
      | some k => by_cases hk : k < 0 <;> simp [hk] at hL
    · intro hgt
      have hb : heartbeatTimeout now last t = true := by simp [heartbeatTimeout, hgt]
      rw [hb]
      rfl
  · intro hstor hb
    rw [hb]
    constructor
    · intro hR
      unfold computeNodeState at hR
      cases hv : vn with
      | none => rw [hv] at hR; simp at hR
      | some k =>
        rw [hv] at hR
        by_cases hk : k < 0
        · rcases hstor k hv with h1 | h1
          · rw [h1]
          · omega
        · simp [hk] at hR
    · rintro rfl
      rfl
  · intro hb
    rw [hb]
    rfl
  · intro v o hstor
    unfold validateRun
    by_cases hc : v.isSome = false ∨ v.getD 0 > 0
    · rw [if_pos hc]
      have hge : (0 : Int) ≤ v.getD 0 := by
        rcases hc with h | h
        · cases v with
          | none => simp
          | some x => simp at h
        · omega
      cases o <;> simp <;> omega
    · rw [if_neg hc]
      push_neg at hc
      obtain ⟨h1, h2⟩ := hc
      cases v with
      | none => simp at h1
      | some x => exact hstor x rfl
  · intro entries vnm mtch filt name st hmem
    simp only [getNodes, List.mem_filterMap] at hmem
    obtain ⟨e, he, hsome⟩ := hmem
    split at hsome
    · exact absurd hsome (by simp)
    · split at hsome
      · obtain ⟨h1, h2⟩ := Prod.mk.injEq _ _ _ _ ▸ (Option.some.inj hsome)
        refine ⟨e.2, ?_, ?_⟩
        · rw [← h1]
          simpa using he
        · rw [← h1]
          exact h2.symm
      · exact absurd hsome (by simp)

/-- Claim C8 (witness): an alive node with stored validation state `-1` is
reported `Ready`. -/
theorem C8_node_state_witness :
    computeNodeState (heartbeatTimeout 0 0 5) (some (-1)) = NodeState.Ready :=
  ((C8_node_state 0 0 5 (some (-1))).2.1
    (fun n hn => by injection hn with h; omega) (by decide)).mpr rfl

/-- Claim C9: a node whose worker stream ends in a non-EOF receive error
after the node was marked `Running` keeps the stored `Running` record (never
`Failed`); only `Failed` records enter the failed-node collection; and when
no node's record is `Failed` the job is recorded through
`UpdateFinishedJob`, even though such a node never completed. -/
theorem C9_recv_error_keeps_running :
    (∀ msgs, StartJobOnNodeFinal (NodeRun.stream msgs StreamEnd.recvErr) =
        some ⟨JobState.Running, 0⟩)
    ∧ (∀ (id : Int) stored, (∀ p ∈ stored, p.2.state ≠ JobState.Failed) →
        dbUpdate id stored = Event.updateFinished id)
    ∧ (∀ stored (q : String × Int), q ∈ failedNodesOf stored →
        ∃ j, (q.1, j) ∈ stored ∧ j.state = JobState.Failed) := by
  refine ⟨?_, ?_, ?_⟩
  · intro msgs
    simp [StartJobOnNodeFinal, recvLoop_recvErr]
  · intro id stored h
    have hf : failedNodesOf stored = [] := by
      rw [failedNodesOf, List.map_eq_nil_iff, List.filter_eq_nil_iff]
      intro p hp
      simpa using h p hp
    simp [dbUpdate, hf]
  · intro stored q hq
    obtain ⟨j, hj, hf, _⟩ := (mem_failedNodesOf stored q).mp hq
    exact ⟨j, hj, hf⟩

/-- Claim C9 (witness): a store holding only a `Running` record yields
`UpdateFinishedJob`. -/
theorem C9_recv_error_keeps_running_witness :
    dbUpdate 7 [("A", jobOnNode.mk JobState.Running 0)] = Event.updateFinished 7 :=
  C9_recv_error_keeps_running.2.1 7 [("A", jobOnNode.mk JobState.Running 0)]
    (by intro p hp; simp at hp; rw [hp]; decide)

/-- Claim C10: when `regexp.MatchString` reports `false` for every node — as
it does for every syntactically invalid pattern, returning `(false, err)`
with the error discarded by the code — `GetNodes` returns the empty list
rather than an error, the ready pool of `GetValidNodes` is empty (a
pure-pattern request resolves to no valid nodes and explicitly requested
nodes all resolve as invalid), and the dispatch is rejected for lack of
valid nodes. -/
theorem C10_invalid_pattern (entries : List (String × Int)) (vn : String → Option Int)
    (now t : Int) (filt : NodeState) (nodes_in : List String) (matched : String → Bool)
    (hm : ∀ s, matched s = false) :
    getNodes entries vn now t matched filt = []
    ∧ getValidNodes entries vn now t matched [] = ([], [])
    ∧ (nodes_in ≠ [] → getValidNodes entries vn now t matched nodes_in = ([], nodes_in))
    ∧ (∀ command sweep env,
        startClusJob command sweep (getValidNodes entries vn now t matched []).1
          (getValidNodes entries vn now t matched []).2 env =
        ([], some Reject.noValidNodes)) := by
  have hpool : entries.foldl (readyPoolStep vn now t matched) ([], []) = ([], []) :=
    foldl_id_of_step _ (fun acc e => readyPoolStep_id vn now t matched hm acc e) entries ([], [])
  refine ⟨getNodes_matched_false entries vn now t filt matched hm, ?_, ?_, ?_⟩
  · simp [getValidNodes, hpool]
  · intro hne
    simp only [getValidNodes, hpool]
    rw [if_neg hne]
    simp [resolveExplicit_empty_pool]
  · intro command sweep env
    have hgv : getValidNodes entries vn now t matched [] = ([], []) := by
      simp [getValidNodes, hpool]
    rw [hgv]
    simp [startClusJob, sortStrings]

/-- Claim C10 (witness): a concrete registry with one ready node and a
matcher that rejects everything. -/
theorem C10_invalid_pattern_witness :
    getNodes [("A", 0)] (fun _ => some (-1)) 0 5 (fun _ => false) NodeState.Unknown = [] :=
  (C10_invalid_pattern [("A", 0)] (fun _ => some (-1)) 0 5 NodeState.Unknown []
    (fun _ => false) (fun _ => rfl)).1

end Clusrun
